import Mathlib

/-!
Shallow embedding of the onion request builder and transport of this
repository (the `HopEncryption`, `CryptoUtils` and `OnionBuilder` classes of
`src/onion/crypto-util.ts`).

Bytes are modelled as `List Nat` (each entry a byte value), `Buffer` slicing
and concatenation as the corresponding list operations. The asynchronous
methods of the source are pure here: every source of randomness
(`nacl.box.keyPair()`, `randomBytes(12)`, `Math.random()`) is passed in as an
explicit stream, and every network call (`axios`) as an explicit result.
External cryptographic primitives not part of this repository
(WebCrypto AES-GCM, node HMAC-SHA256, tweetnacl X25519) are either taken as
function parameters or modelled from the spec; each such definition says so
in its doc comment.
-/

/-! ### Byte-level helpers -/

/-- Little-endian 32-bit size prefix: the embedding of
`buf.writeUInt32LE(size, 0)` / `DataView.setUint32(0, n, true)` on a 4-byte
buffer. -/
def u32LE (n : Nat) : List Nat :=
  [n % 256, n / 256 % 256, n / 65536 % 256, n / 16777216 % 256]

/-- UTF-8 bytes of a string: the embedding of `Buffer.from(s)` and
`new TextEncoder().encode(s)`. -/
def utf8Bytes (s : String) : List Nat :=
  s.toUTF8.toList.map (fun b => b.toNat)

/-- Lowercase hex digit for a value `0..15`. -/
def hexDigitChar (n : Nat) : Char :=
  if n < 10 then Char.ofNat (48 + n) else Char.ofNat (87 + n)

/-- Two lowercase hex digits of one byte. -/
def byteToHex (b : Nat) : String :=
  String.mk [hexDigitChar (b / 16 % 16), hexDigitChar (b % 16)]

/-- One hex digit back to a value. -/
def hexVal (c : Char) : Option Nat :=
  if 48 ≤ c.toNat ∧ c.toNat ≤ 57 then some (c.toNat - 48)
  else if 97 ≤ c.toNat ∧ c.toNat ≤ 102 then some (c.toNat - 87)
  else if 65 ≤ c.toNat ∧ c.toNat ≤ 70 then some (c.toNat - 55)
  else none

/-- Hex characters to bytes, stopping at the first invalid pair, as
`Buffer.from(hex, "hex")` does. -/
def hexCharsToBytes : List Char → List Nat
  | c1 :: c2 :: rest =>
    match hexVal c1, hexVal c2 with
    | some a, some b => (16 * a + b) :: hexCharsToBytes rest
    | _, _ => []
  | _ => []

namespace CryptoUtils

/-- `CryptoUtils.toHex`: `buffer.toString("hex")` — lowercase hex. -/
def toHex (buffer : List Nat) : String :=
  String.join (buffer.map byteToHex)

/-- `CryptoUtils.fromHex`: `Buffer.from(hex, "hex")`. -/
def fromHex (hex : String) : List Nat :=
  hexCharsToBytes hex.data

end CryptoUtils

/-! ### Compact JSON serialization (`JSON.stringify`) -/

/-- Escaping of one character inside a JSON string literal, as
`JSON.stringify` performs it. -/
def jsonEscapeChar (c : Char) : String :=
  if c = '"' then "\\\""
  else if c = '\\' then "\\\\"
  else if c.toNat = 8 then "\\b"
  else if c.toNat = 9 then "\\t"
  else if c.toNat = 10 then "\\n"
  else if c.toNat = 12 then "\\f"
  else if c.toNat = 13 then "\\r"
  else if c.toNat < 32 then "\\u00" ++ byteToHex c.toNat
  else String.singleton c

/-- A JSON string literal: `JSON.stringify` of a string value. -/
def jsonStr (s : String) : String :=
  "\"" ++ String.join (s.data.map jsonEscapeChar) ++ "\""

/-! ### SHA-256 and HMAC-SHA256

Modelled from the spec: node's `createHmac("sha256", salt)` is an external
library; the spec names the derivation "HMAC-SHA256 with key the 4-byte ASCII
string LOKI". We implement SHA-256 (FIPS 180-4) and HMAC (RFC 2104) over byte
lists. -/

/-- 32-bit right rotation on a `Nat` holding a 32-bit word. -/
def rotr32 (x n : Nat) : Nat :=
  (x / 2 ^ n + x % 2 ^ n * 2 ^ (32 - n)) % 4294967296

/-- The 64 SHA-256 round constants. -/
def sha256K : List Nat :=
  [1116352408, 1899447441, 3049323471, 3921009573,
   961987163, 1508970993, 2453635748, 2870763221,
   3624381080, 310598401, 607225278, 1426881987,
   1925078388, 2162078206, 2614888103, 3248222580,
   3835390401, 4022224774, 264347078, 604807628,
   770255983, 1249150122, 1555081692, 1996064986,
   2554220882, 2821834349, 2952996808, 3210313671,
   3336571891, 3584528711, 113926993, 338241895,
   666307205, 773529912, 1294757372, 1396182291,
   1695183700, 1986661051, 2177026350, 2456956037,
   2730485921, 2820302411, 3259730800, 3345764771,
   3516065817, 3600352804, 4094571909, 275423344,
   430227734, 506948616, 659060556, 883997877,
   958139571, 1322822218, 1537002063, 1747873779,
   1955562222, 2024104815, 2227730452, 2361852424,
   2428436474, 2756734187, 3204031479, 3329325298]

/-- The SHA-256 initial hash state. -/
def sha256H0 : List Nat :=
  [1779033703, 3144134277, 1013904242, 2773480762,
   1359893119, 2600822924, 528734635, 1541459225]

/-- Big-endian 32-bit word from the first four bytes of a list. -/
def beWord (l : List Nat) : Nat :=
  match l with
  | b0 :: b1 :: b2 :: b3 :: _ => ((b0 * 256 + b1) * 256 + b2) * 256 + b3
  | _ => 0

/-- One message-schedule extension step. -/
def sha256SchedStep (w : Array Nat) (i : Nat) : Array Nat :=
  let x15 := w.getD (i - 15) 0
  let x2 := w.getD (i - 2) 0
  let s0 := (rotr32 x15 7) ^^^ (rotr32 x15 18) ^^^ (x15 / 2 ^ 3)
  let s1 := (rotr32 x2 17) ^^^ (rotr32 x2 19) ^^^ (x2 / 2 ^ 10)
  w.push ((w.getD (i - 16) 0 + s0 + w.getD (i - 7) 0 + s1) % 4294967296)

/-- The 64-word message schedule of one 64-byte chunk. -/
def sha256Sched (chunk : List Nat) : Array Nat :=
  let w0 := (Array.range 16).map (fun i => beWord (chunk.drop (4 * i)))
  (List.range 48).foldl (fun w j => sha256SchedStep w (j + 16)) w0

/-- One SHA-256 compression round on the 8-word working state. -/
def sha256Round (k w : Nat) (st : List Nat) : List Nat :=
  match st with
  | [a, b, c, d, e, f, g, h] =>
    let s1 := (rotr32 e 6) ^^^ (rotr32 e 11) ^^^ (rotr32 e 25)
    let ch := (e &&& f) ^^^ ((e ^^^ 4294967295) &&& g)
    let t1 := (h + s1 + ch + k + w) % 4294967296
    let s0 := (rotr32 a 2) ^^^ (rotr32 a 13) ^^^ (rotr32 a 22)
    let maj := (a &&& b) ^^^ (a &&& c) ^^^ (b &&& c)
    let t2 := (s0 + maj) % 4294967296
    [(t1 + t2) % 4294967296, a, b, c, (d + t1) % 4294967296, e, f, g]
  | other => other

/-- SHA-256 compression of one 64-byte chunk into the hash state. -/
def sha256Compress (hs : List Nat) (chunk : List Nat) : List Nat :=
  let w := sha256Sched chunk
  let st := (List.range 64).foldl
    (fun st i => sha256Round (sha256K.getD i 0) (w.getD i 0) st) hs
  List.zipWith (fun a b => (a + b) % 4294967296) hs st

/-- Big-endian 8-byte encoding of the bit length. -/
def beBytes8 (n : Nat) : List Nat :=
  [n / 2 ^ 56 % 256, n / 2 ^ 48 % 256, n / 2 ^ 40 % 256, n / 2 ^ 32 % 256,
   n / 2 ^ 24 % 256, n / 2 ^ 16 % 256, n / 2 ^ 8 % 256, n % 256]

/-- SHA-256 padding: `0x80`, zeros to 56 mod 64, 8-byte big-endian bit
length. -/
def sha256Pad (msg : List Nat) : List Nat :=
  let padZeros := (55 + 64 - msg.length % 64) % 64
  msg ++ [128] ++ List.replicate padZeros 0 ++ beBytes8 (8 * msg.length)

/-- Fold the compression function over consecutive 64-byte chunks; `fuel`
bounds the number of chunks (the caller passes enough). -/
def sha256Blocks (fuel : Nat) (hs : List Nat) (msg : List Nat) : List Nat :=
  match fuel, msg with
  | _, [] => hs
  | 0, _ => hs
  | fuel + 1, m => sha256Blocks fuel (sha256Compress hs (m.take 64)) (m.drop 64)

/-- SHA-256 of a byte list, as 32 bytes. -/
def sha256 (msg : List Nat) : List Nat :=
  let padded := sha256Pad msg
  let hs := sha256Blocks padded.length sha256H0 padded
  (hs.map (fun h => [h / 2 ^ 24 % 256, h / 2 ^ 16 % 256, h / 2 ^ 8 % 256, h % 256])).flatten

/-- HMAC-SHA256 (RFC 2104) of a message under a key. -/
def hmacSHA256 (key msg : List Nat) : List Nat :=
  let k1 := if 64 < key.length then sha256 key else key
  let k0 := k1 ++ List.replicate (64 - k1.length) 0
  let ipad := k0.map (fun b => b ^^^ 54)
  let opad := k0.map (fun b => b ^^^ 92)
  sha256 (opad ++ sha256 (ipad ++ msg))

/-! ### X25519 model

Modelled from the spec: `nacl.scalarMult` (tweetnacl, an external library) is
"Curve25519 scalar multiplication; both inputs are clamped per the standard".
The points of the prime-order subgroup of Curve25519 form a cyclic group of
order `2^252 + 27742317777372353535851937790883648493`; we model a point by
its discrete logarithm (a residue modulo that order, serialized as 32
little-endian bytes) so that scalar multiplication is multiplication modulo
the group order. Scalar clamping follows RFC 7748 exactly. -/

/-- Little-endian bytes to a natural number. -/
def bytesToNatLE : List Nat → Nat
  | [] => 0
  | b :: rest => b + 256 * bytesToNatLE rest

/-- A natural number as `len` little-endian bytes. -/
def natToBytesLE : Nat → Nat → List Nat
  | 0, _ => []
  | len + 1, n => n % 256 :: natToBytesLE len (n / 256)

/-- RFC 7748 clamping of a 32-byte X25519 scalar: clear the low 3 bits of
byte 0, clear the top bit of byte 31 and set its bit 6. -/
def clampScalarBytes (s : List Nat) : List Nat :=
  (s.set 0 (s.getD 0 0 / 8 * 8)).set 31 (s.getD 31 0 % 64 + 64)

/-- The clamped scalar as a natural number. -/
def clampScalar (s : List Nat) : Nat :=
  bytesToNatLE (clampScalarBytes s)

/-- Order of the prime-order subgroup of Curve25519. -/
def c25519Order : Nat := 2 ^ 252 + 27742317777372353535851937790883648493

/-- Modelled from the spec: `nacl.scalarMult` — X25519 scalar multiplication
in the group model (clamped scalar times the point's residue, modulo the
group order, re-serialized as 32 little-endian bytes). -/
def scalarMult (s P : List Nat) : List Nat :=
  natToBytesLE 32 (clampScalar s * bytesToNatLE P % c25519Order)

/-- The serialized base point of the model (residue 9, echoing the Curve25519
base point's u-coordinate). -/
def basePointBytes : List Nat := natToBytesLE 32 9

/-- Modelled from the spec: `nacl.scalarMult.base` / the public half of
`nacl.box.keyPair()` — the public key belonging to a secret scalar. -/
def scalarMultBase (sk : List Nat) : List Nat :=
  scalarMult sk basePointBytes

/-! ### HopEncryption (`src/onion/crypto-util.ts`) -/

/-- The state of a `HopEncryption` instance. -/
structure HopEncryption where
  privateKey : List Nat
  publicKey : List Nat
  isServer : Bool
deriving Repr, DecidableEq

/-- The `HopEncryption` constructor: both key buffers pass through
`.slice(0, 32)`. -/
def HopEncryption.create (privateKey publicKey : List Nat)
    (isServer : Bool) : HopEncryption :=
  ⟨privateKey.take 32, publicKey.take 32, isServer⟩

/-- The 4-byte ASCII salt `Buffer.from("LOKI")`. -/
def lokiSalt : List Nat := utf8Bytes "LOKI"

/-- `HopEncryption.deriveSymmetricKey`: HMAC-SHA256 keyed with `"LOKI"` over
the X25519 shared secret. The `isForDecryption` flag of the source is unused
by the source body and omitted. -/
def deriveSymmetricKey (seckey pubkey : List Nat) : List Nat :=
  hmacSHA256 lokiSalt (scalarMult seckey pubkey)

/-- `HopEncryption.encryptAESGCM`. The WebCrypto AES-GCM primitive is the
parameter `enc` (key, IV, plaintext to ciphertext-plus-tag); the 12-byte IV
(`randomBytes(12)` in the source) is passed in explicitly. The result is
`IV || ciphertext`. -/
def HopEncryption.encryptAESGCM (enc : List Nat → List Nat → List Nat → List Nat)
    (st : HopEncryption) (iv plaintext recipientPubKey : List Nat) : List Nat :=
  let key := deriveSymmetricKey st.privateKey recipientPubKey
  iv ++ enc key iv plaintext

/-- `HopEncryption.encrypt`: dispatch on `encType`. -/
def HopEncryption.encrypt (enc : List Nat → List Nat → List Nat → List Nat)
    (st : HopEncryption) (encType : String) (iv plaintext recipientPubKey : List Nat) :
    Except String (List Nat) :=
  if encType == "aes-gcm" || encType == "gcm" then
    .ok (st.encryptAESGCM enc iv plaintext recipientPubKey)
  else
    .error ("Unsupported encryption type: " ++ encType)

/-- `HopEncryption.decryptAESGCM`. The WebCrypto AES-GCM opening primitive is
the parameter `dec` (key, IV, ciphertext to optional plaintext; `none` is the
`OperationError` the WebCrypto call raises on tag failure). -/
def HopEncryption.decryptAESGCM (dec : List Nat → List Nat → List Nat → Option (List Nat))
    (st : HopEncryption) (ciphertext senderPubKey : List Nat) :
    Except String (List Nat) :=
  if ciphertext.length < 12 + 16 then
    .error "Ciphertext too short for AES-GCM"
  else
    match dec (deriveSymmetricKey st.privateKey senderPubKey)
        (ciphertext.take 12) (ciphertext.drop 12) with
    | some plain => .ok plain
    | none => .error "OperationError"

/-- `HopEncryption.decrypt`: dispatch on `encType`; the `"xchacha20"` branch
of the source falls back to AES-GCM. -/
def HopEncryption.decrypt (dec : List Nat → List Nat → List Nat → Option (List Nat))
    (st : HopEncryption) (encType : String) (ciphertext senderPubKey : List Nat) :
    Except String (List Nat) :=
  if encType == "aes-gcm" || encType == "gcm" then
    st.decryptAESGCM dec ciphertext senderPubKey
  else if encType == "xchacha20" then
    st.decryptAESGCM dec ciphertext senderPubKey
  else
    .error ("Unsupported encryption type: " ++ encType)

/-! ### OnionBuilder data model (`src/onion/crypto-util.ts`) -/

/-- A `ServiceNode` directory entry. -/
structure ServiceNode where
  pubkey_ed25519 : String
  pubkey_x25519 : String
  public_ip : String
  storage_lmq_port : Nat
  storage_port : Nat
  swarm_id : Nat
deriving Repr, DecidableEq

instance : Inhabited ServiceNode := ⟨⟨"", "", "", 0, 0, 0⟩⟩

/-- An `OnionPathNode`, the projection of a `ServiceNode` chosen for a
path. -/
structure OnionPathNode where
  ed25519_pubkey : String
  x25519_pubkey : String
  ip : String
  port : Nat
deriving Repr, DecidableEq

instance : Inhabited OnionPathNode := ⟨⟨"", "", "", 0⟩⟩

/-- An `OnionDestination`: the terminal HTTP target. The protocol is kept as
a string, as on the wire. -/
structure OnionDestination where
  host : String
  port : Nat
  protocol : String
  target : String
deriving Repr, DecidableEq

/-- An X25519 keypair as produced by `nacl.box.keyPair()`. -/
structure KeyPair where
  publicKey : List Nat
  secretKey : List Nat
deriving Repr, DecidableEq

/-- The `OnionRequestResult` returned by `buildOnionRequest`. `entryNode` is
`onionPath[0]`, which is undefined (`none`) on an empty path. -/
structure OnionRequestResult where
  encryptedPayload : List Nat
  entryNode : Option OnionPathNode
  ephemeralKey : List Nat
  finalEphemeralPublicKey : List Nat
  finalEphemeralSecretKey : List Nat
deriving Repr, DecidableEq

/-! ### Path selection (`OnionBuilder.buildOnionPath`) -/

/-- The truthiness filter of `buildOnionPath`: all of `pubkey_ed25519`,
`pubkey_x25519`, `public_ip` (strings: non-empty) and `storage_port`
(number: non-zero) must be truthy. -/
def isActiveNode (node : ServiceNode) : Bool :=
  node.pubkey_ed25519 != "" && node.pubkey_x25519 != "" &&
    node.public_ip != "" && node.storage_port != 0

/-- The `serviceNodes.filter(...)` step of `buildOnionPath`. -/
def filterActive (serviceNodes : List ServiceNode) : List ServiceNode :=
  serviceNodes.filter isActiveNode

/-- The message of the error thrown when too few active nodes remain. -/
def insufficientMsg (need got : Nat) : String :=
  "Not enough active service nodes. Need " ++ toString need ++ ", got " ++
    toString got

/-- The message of the wrapping error thrown by the catch-all of
`buildOnionPath`. -/
def pathFailMsg : String := "Unable to build onion path"

/-- The rejection-sampling `while` loop of `buildOnionPath`:
`rand k % numActive` models the k-th `Math.floor(Math.random() * len)`;
`acc` is the list of already-used indices in selection order. The loop of
the source can spin forever on a repeating stream, so it is bounded by
`fuel`; `none` means the bound was hit (divergence of the source). -/
def pickIndices (numActive pathLength : Nat) (rand : Nat → Nat) :
    Nat → Nat → List Nat → Option (List Nat)
  | 0, _, acc => if acc.length < pathLength then none else some acc
  | fuel + 1, k, acc =>
    if acc.length < pathLength then
      let idx := rand k % numActive
      pickIndices numActive pathLength rand fuel (k + 1)
        (if acc.contains idx then acc else acc ++ [idx])
    else some acc

/-- The projection applied to each selected node. -/
def projectNode (node : ServiceNode) : OnionPathNode :=
  ⟨node.pubkey_ed25519, node.pubkey_x25519, node.public_ip, node.storage_port⟩

/-- The body of the `try` block of `buildOnionPath`. `none` models
divergence of the unbounded sampling loop. -/
def buildOnionPathTry (serviceNodes : List ServiceNode) (pathLength : Nat)
    (rand : Nat → Nat) (fuel : Nat) :
    Option (Except String (List OnionPathNode)) :=
  let activeNodes := filterActive serviceNodes
  if activeNodes.length < pathLength then
    some (.error (insufficientMsg pathLength activeNodes.length))
  else
    match pickIndices activeNodes.length pathLength rand fuel 0 [] with
    | none => none
    | some idxs =>
      some (.ok (idxs.map (fun i => projectNode (activeNodes.getD i default))))

/-- `OnionBuilder.buildOnionPath`: the `try` body wrapped by the catch-all
that rethrows every failure as `Error("Unable to build onion path")`. -/
def buildOnionPath (serviceNodes : List ServiceNode) (pathLength : Nat)
    (rand : Nat → Nat) (fuel : Nat) :
    Option (Except String (List OnionPathNode)) :=
  match buildOnionPathTry serviceNodes pathLength rand fuel with
  | none => none
  | some (.error _) => some (.error pathFailMsg)
  | some (.ok path) => some (.ok path)

/-! ### updateServiceNodes (`OnionBuilder.updateServiceNodes`) -/

/-- `OnionBuilder.updateServiceNodes`: the awaited `fetchServiceNodes`
network call is passed in as its result. On success the stored list is
replaced wholesale; on failure the error is rethrown (after logging) and the
stored list is untouched. Returns the method's outcome together with the
post-call stored list. -/
def updateServiceNodes (fetchResult : Except String (List ServiceNode))
    (serviceNodes : List ServiceNode) :
    Except String Unit × List ServiceNode :=
  match fetchResult with
  | .ok realServiceNodes => (.ok (), realServiceNodes)
  | .error e => (.error e, serviceNodes)

/-! ### buildOnionRequest (`OnionBuilder.buildOnionRequest`)

The source generates `nacl.box.keyPair()` once before the loop (the final
ephemeral keypair) and once per loop iteration, and one 12-byte IV per
encryption. `keyGen k` is the k-th keypair generated (k = 0 the final one,
k = j + 1 the one of the j-th executed loop iteration) and `ivGen j` the IV
of the j-th executed encryption. `enc` is the WebCrypto AES-GCM primitive as
in `HopEncryption.encryptAESGCM`. -/

/-- `JSON.stringify({headers: {}})`, the routing tail of the innermost
frame. -/
def headersRoutingJson : String := "\x7b\"headers\":\x7b\x7d\x7d"

/-- `JSON.stringify` of the terminal-hop routing object
`{host, port, protocol, target}` (insertion order of the object literal). -/
def destRoutingJson (destination : OnionDestination) : String :=
  "\x7b\"host\":" ++ jsonStr destination.host ++
    ",\"port\":" ++ toString destination.port ++
    ",\"protocol\":" ++ jsonStr destination.protocol ++
    ",\"target\":" ++ jsonStr destination.target ++ "\x7d"

/-- `JSON.stringify` of the intermediate-hop routing object
`{destination, ephemeral_key, enc_type}`. -/
def intermediateRoutingJson (destEd25519 ephemeralKeyHex : String) : String :=
  "\x7b\"destination\":" ++ jsonStr destEd25519 ++
    ",\"ephemeral_key\":" ++ jsonStr ephemeralKeyHex ++
    ",\"enc_type\":\"aes-gcm\"\x7d"

/-- `JSON.stringify` of the unencrypted outer wrapper metadata
`{ephemeral_key, enc_type}`. -/
def wrapperMetaJson (ephemeralKeyHex : String) : String :=
  "\x7b\"ephemeral_key\":" ++ jsonStr ephemeralKeyHex ++
    ",\"enc_type\":\"aes-gcm\"\x7d"

/-- The innermost frame (`finalData` of the source):
`u32_LE(len(payload)) || payload || utf8(JSON({headers:{}}))`. -/
def innermostFrame (payloadJson : String) : List Nat :=
  u32LE (utf8Bytes payloadJson).length ++ utf8Bytes payloadJson ++
    utf8Bytes headersRoutingJson

/-- The plaintext of the loop iteration with index `i`
(`[blob_size][blob][routing_json]` of the source). Entering iteration `i`,
`ephemeralKeyForNextHop` is the public key of keypair `N - 1 - i` (the final
keypair for `i = N - 1`, else the one generated by the previous
iteration). -/
def hopLayerPlain (onionPath : List OnionPathNode)
    (destination : OnionDestination) (keyGen : Nat → KeyPair) (i : Nat)
    (blob : List Nat) : List Nat :=
  let n := onionPath.length
  let routingInfo :=
    if i = n - 1 then destRoutingJson destination
    else
      intermediateRoutingJson (onionPath.getD (i + 1) default).ed25519_pubkey
        (CryptoUtils.toHex (keyGen (n - 1 - i)).publicKey)
  u32LE blob.length ++ blob ++ utf8Bytes routingInfo

/-- One loop iteration of `buildOnionRequest` at index `i`, without the
`Except` plumbing: seal the framed layer for `onionPath[i]` with a fresh
`HopEncryption` built over keypair `N - i`. -/
def hopIterationPure (enc : List Nat → List Nat → List Nat → List Nat)
    (onionPath : List OnionPathNode) (destination : OnionDestination)
    (keyGen : Nat → KeyPair) (ivGen : Nat → List Nat) (i : Nat)
    (blob : List Nat) : List Nat :=
  let n := onionPath.length
  let node := onionPath.getD i default
  let ephKP := keyGen (n - i)
  let st := HopEncryption.create ephKP.secretKey ephKP.publicKey false
  st.encryptAESGCM enc (ivGen (n - 1 - i))
    (hopLayerPlain onionPath destination keyGen i blob)
    (CryptoUtils.fromHex node.x25519_pubkey)

/-- The `for (let i = onionPath.length - 1; i >= 0; i--)` loop with the
fallible `encrypt("aes-gcm", ...)` call; `c` counts the iterations still to
run (the current index is `c - 1`). -/
def onionLoop (enc : List Nat → List Nat → List Nat → List Nat)
    (onionPath : List OnionPathNode) (destination : OnionDestination)
    (keyGen : Nat → KeyPair) (ivGen : Nat → List Nat) :
    Nat → List Nat → Except String (List Nat)
  | 0, blob => .ok blob
  | c + 1, blob =>
    let n := onionPath.length
    let i := c
    let node := onionPath.getD i default
    let ephKP := keyGen (n - i)
    let st := HopEncryption.create ephKP.secretKey ephKP.publicKey false
    match st.encrypt enc "aes-gcm" (ivGen (n - 1 - i))
        (hopLayerPlain onionPath destination keyGen i blob)
        (CryptoUtils.fromHex node.x25519_pubkey) with
    | .ok newBlob => onionLoop enc onionPath destination keyGen ivGen c newBlob
    | .error e => .error e

/-- The pure mirror of `onionLoop` (the `"aes-gcm"` dispatch never fails). -/
def onionLoopPure (enc : List Nat → List Nat → List Nat → List Nat)
    (onionPath : List OnionPathNode) (destination : OnionDestination)
    (keyGen : Nat → KeyPair) (ivGen : Nat → List Nat) :
    Nat → List Nat → List Nat
  | 0, blob => blob
  | c + 1, blob =>
    onionLoopPure enc onionPath destination keyGen ivGen c
      (hopIterationPure enc onionPath destination keyGen ivGen c blob)

/-- The fully-encrypted blob produced by the loop of `buildOnionRequest`. -/
def onionBlobFinal (enc : List Nat → List Nat → List Nat → List Nat)
    (payloadJson : String) (onionPath : List OnionPathNode)
    (destination : OnionDestination) (keyGen : Nat → KeyPair)
    (ivGen : Nat → List Nat) : List Nat :=
  onionLoopPure enc onionPath destination keyGen ivGen onionPath.length
    (innermostFrame payloadJson)

/-- `OnionBuilder.buildOnionRequest`. The payload is taken as its
`JSON.stringify` image (`payloadJson`), the JSON value being opaque to the
builder. After the loop, `ephemeralKeyForNextHop` is the public key of
keypair `onionPath.length` (for an empty path that is keypair 0, the final
ephemeral keypair, unchanged). -/
def buildOnionRequest (enc : List Nat → List Nat → List Nat → List Nat)
    (payloadJson : String) (onionPath : List OnionPathNode)
    (destination : OnionDestination) (keyGen : Nat → KeyPair)
    (ivGen : Nat → List Nat) : Except String OnionRequestResult :=
  match onionLoop enc onionPath destination keyGen ivGen onionPath.length
      (innermostFrame payloadJson) with
  | .error e => .error e
  | .ok blob =>
    let outerEphPub := (keyGen onionPath.length).publicKey
    let meta := wrapperMetaJson (CryptoUtils.toHex outerEphPub)
    .ok
      { encryptedPayload := u32LE blob.length ++ blob ++ utf8Bytes meta
        entryNode := onionPath.head?
        ephemeralKey := outerEphPub
        finalEphemeralPublicKey := (keyGen 0).publicKey
        finalEphemeralSecretKey := (keyGen 0).secretKey }

/-! ### sendOnionRequest (`OnionBuilder.sendOnionRequest`)

Modelled up to the network send (`sendRawOnionRequest` is a pure HTTP POST of
the built request): the destination validation, the path build and the
request build, returning the built request. -/

/-- The truthiness validation of `sendOnionRequest` on the destination. -/
def destinationValid (destination : OnionDestination) : Bool :=
  destination.host != "" && destination.port != 0 &&
    destination.protocol != "" && destination.target != ""

/-- The message of the destination-validation error. -/
def destErrorMsg : String :=
  "Custom destination must have host, port, protocol, and target properties"

/-- `OnionBuilder.sendOnionRequest` up to the outbound HTTP call: validate
the destination, build the path, then build the onion request. `none` models
divergence of path selection. -/
def sendOnionRequest (enc : List Nat → List Nat → List Nat → List Nat)
    (payloadJson : String) (customDestination : OnionDestination)
    (serviceNodes : List ServiceNode) (onionPathLength : Nat)
    (rand : Nat → Nat) (fuel : Nat) (keyGen : Nat → KeyPair)
    (ivGen : Nat → List Nat) : Option (Except String OnionRequestResult) :=
  if !destinationValid customDestination then
    some (.error destErrorMsg)
  else
    match buildOnionPath serviceNodes onionPathLength rand fuel with
    | none => none
    | some (.error e) => some (.error e)
    | some (.ok onionPath) =>
      some (buildOnionRequest enc payloadJson onionPath customDestination
        keyGen ivGen)

/-! ### Basic lemmas -/

theorem encrypt_aesgcm_ok (enc : List Nat → List Nat → List Nat → List Nat)
    (st : HopEncryption) (iv plaintext recipientPubKey : List Nat) :
    st.encrypt enc "aes-gcm" iv plaintext recipientPubKey =
      .ok (st.encryptAESGCM enc iv plaintext recipientPubKey) := rfl

theorem onionLoop_eq_pure (enc : List Nat → List Nat → List Nat → List Nat)
    (onionPath : List OnionPathNode) (destination : OnionDestination)
    (keyGen : Nat → KeyPair) (ivGen : Nat → List Nat) :
    ∀ (c : Nat) (blob : List Nat),
      onionLoop enc onionPath destination keyGen ivGen c blob =
        .ok (onionLoopPure enc onionPath destination keyGen ivGen c blob) := by
  intro c
  induction c with
  | zero => intro blob; rfl
  | succ c ih =>
    intro blob
    simp only [onionLoop, onionLoopPure, encrypt_aesgcm_ok, hopIterationPure]
    exact ih _

theorem head?_eq_getD {α : Type} [Inhabited α] (l : List α) (h : l ≠ []) :
    l.head? = some (l.getD 0 default) := by
  cases l with
  | nil => exact absurd rfl h
  | cons a t => rfl

theorem buildOnionRequest_ok (enc : List Nat → List Nat → List Nat → List Nat)
    (payloadJson : String) (onionPath : List OnionPathNode)
    (destination : OnionDestination) (keyGen : Nat → KeyPair)
    (ivGen : Nat → List Nat) :
    buildOnionRequest enc payloadJson onionPath destination keyGen ivGen =
      .ok
        { encryptedPayload :=
            u32LE (onionBlobFinal enc payloadJson onionPath destination keyGen ivGen).length ++
              onionBlobFinal enc payloadJson onionPath destination keyGen ivGen ++
              utf8Bytes (wrapperMetaJson
                (CryptoUtils.toHex (keyGen onionPath.length).publicKey))
          entryNode := onionPath.head?
          ephemeralKey := (keyGen onionPath.length).publicKey
          finalEphemeralPublicKey := (keyGen 0).publicKey
          finalEphemeralSecretKey := (keyGen 0).secretKey } := by
  simp only [buildOnionRequest, onionLoop_eq_pure, onionBlobFinal]

/-! ### Claim C5 -/

/-- C5: the spec rejects every `enc_type` other than `"aes-gcm"` with a
backend error, in particular `"xchacha20"`; the code instead silently falls
back to AES-GCM decryption for `"xchacha20"` and never produces the
unsupported-type rejection there. This theorem evaluates the code at the
failing input. -/
theorem claim_c5_xchacha_fallback
    (dec : List Nat → List Nat → List Nat → Option (List Nat))
    (st : HopEncryption) (ciphertext senderPubKey : List Nat) :
    HopEncryption.decrypt dec st "xchacha20" ciphertext senderPubKey =
      st.decryptAESGCM dec ciphertext senderPubKey ∧
    HopEncryption.decrypt dec st "xchacha20" ciphertext senderPubKey ≠
      .error ("Unsupported encryption type: " ++ "xchacha20") := by
  constructor
  · rfl
  · show st.decryptAESGCM dec ciphertext senderPubKey ≠ _
    unfold HopEncryption.decryptAESGCM
    split
    · intro h
      exact absurd (Except.error.inj h) (by decide)
    · split
      · intro h
        exact Except.noConfusion h
      · intro h
        exact absurd (Except.error.inj h) (by decide)

/-! ### Claim C6 -/

/-- C6: the spec rejects a requested path length of 0 with
`PathError::ZeroLength`; the code has no such check and `buildOnionPath`
returns the empty path successfully for every candidate list. This theorem
evaluates the code at the failing input. -/
theorem claim_c6_zero_length_path (serviceNodes : List ServiceNode)
    (rand : Nat → Nat) (fuel : Nat) :
    buildOnionPath serviceNodes 0 rand fuel = some (.ok []) := by
  unfold buildOnionPath buildOnionPathTry
  cases fuel <;> simp [pickIndices]

/-! ### Claim C8 -/

/-- C8: the `HopEncryption` constructor silently truncates each key buffer
to its first 32 bytes (`slice(0, 32)`), accepts shorter keys unchanged,
performs no length validation, and every later key derivation sees only the
(at most) first 32 bytes of the supplied keys. -/
theorem claim_c8_key_truncation (sk pk : List Nat) (isServer : Bool) :
    HopEncryption.create sk pk isServer =
      HopEncryption.create (sk.take 32) (pk.take 32) isServer ∧
    (sk.length ≤ 32 → (HopEncryption.create sk pk isServer).privateKey = sk) ∧
    (pk.length ≤ 32 → (HopEncryption.create sk pk isServer).publicKey = pk) ∧
    (32 ≤ sk.length →
      (HopEncryption.create sk pk isServer).privateKey = sk.take 32 ∧
      (HopEncryption.create sk pk isServer).privateKey.length = 32) ∧
    (32 ≤ pk.length →
      (HopEncryption.create sk pk isServer).publicKey = pk.take 32 ∧
      (HopEncryption.create sk pk isServer).publicKey.length = 32) ∧
    (∀ (enc : List Nat → List Nat → List Nat → List Nat) (iv pt rc : List Nat),
      (HopEncryption.create sk pk isServer).encryptAESGCM enc iv pt rc =
        iv ++ enc (deriveSymmetricKey (sk.take 32) rc) iv pt) := by
  refine ⟨?_, ?_, ?_, ?_, ?_, ?_⟩
  · simp [HopEncryption.create, List.take_take]
  · intro h; simp [HopEncryption.create, List.take_of_length_le h]
  · intro h; simp [HopEncryption.create, List.take_of_length_le h]
  · intro h
    refine ⟨rfl, ?_⟩
    simp [HopEncryption.create, List.length_take, Nat.min_eq_left h]
  · intro h
    refine ⟨rfl, ?_⟩
    simp [HopEncryption.create, List.length_take, Nat.min_eq_left h]
  · intro enc iv pt rc
    rfl

/-- Witness for C8 at concrete inputs: a 33-byte secret key and a 2-byte
public key. -/
theorem claim_c8_key_truncation_witness :
    ((List.replicate 33 7 : List Nat).length ≤ 32 →
      (HopEncryption.create (List.replicate 33 7) [1, 2] true).privateKey =
        List.replicate 33 7) ∧
    (([1, 2] : List Nat).length ≤ 32 →
      (HopEncryption.create (List.replicate 33 7) [1, 2] true).publicKey = [1, 2]) ∧
    (32 ≤ (List.replicate 33 7 : List Nat).length →
      (HopEncryption.create (List.replicate 33 7) [1, 2] true).privateKey =
        (List.replicate 33 7 : List Nat).take 32 ∧
      (HopEncryption.create (List.replicate 33 7) [1, 2] true).privateKey.length = 32) := by
  have h := claim_c8_key_truncation (List.replicate 33 7) [1, 2] true
  exact ⟨h.2.1, h.2.2.1, h.2.2.2.1⟩

/-! ### Claim C9 -/

/-- C9: `updateServiceNodes` is atomic over the stored list: a failed fetch
rethrows the error and leaves the list untouched; a successful fetch replaces
it wholesale. -/
theorem claim_c9_update_atomicity (current fetched : List ServiceNode)
    (e : String) :
    updateServiceNodes (.ok fetched) current = (.ok (), fetched) ∧
    updateServiceNodes (.error e) current = (.error e, current) :=
  ⟨rfl, rfl⟩

/-! ### Claim C1 -/

/-- C1: for every payload and selected path of length at least 1,
`buildOnionRequest` returns an envelope whose bytes are the unencrypted
wrapper `u32_LE(len(blob)) || blob || utf8(JSON)` with the metadata JSON
carrying the lowercase hex of the outermost layer's ephemeral public key
(the keypair generated by the last executed loop iteration, index
`path.length` of the generation stream) and `enc_type: "aes-gcm"`, and whose
entry node is the first element of the path. -/
theorem claim_c1_envelope (enc : List Nat → List Nat → List Nat → List Nat)
    (payloadJson : String) (onionPath : List OnionPathNode)
    (destination : OnionDestination) (keyGen : Nat → KeyPair)
    (ivGen : Nat → List Nat) (h : onionPath ≠ []) :
    buildOnionRequest enc payloadJson onionPath destination keyGen ivGen =
      .ok
        { encryptedPayload :=
            u32LE (onionBlobFinal enc payloadJson onionPath destination keyGen ivGen).length ++
              onionBlobFinal enc payloadJson onionPath destination keyGen ivGen ++
              utf8Bytes (wrapperMetaJson
                (CryptoUtils.toHex (keyGen onionPath.length).publicKey))
          entryNode := some (onionPath.getD 0 default)
          ephemeralKey := (keyGen onionPath.length).publicKey
          finalEphemeralPublicKey := (keyGen 0).publicKey
          finalEphemeralSecretKey := (keyGen 0).secretKey } := by
  rw [buildOnionRequest_ok, head?_eq_getD _ h]

/-- Witness for C1 on a one-hop path with concrete streams. -/
theorem claim_c1_envelope_witness :
    ([(⟨"ed", "aabb", "ip", 1⟩ : OnionPathNode)] ≠ ([] : List OnionPathNode)) ∧
    buildOnionRequest (fun _ _ pt => pt ++ [0]) "p"
        [⟨"ed", "aabb", "ip", 1⟩] ⟨"h", 2, "https", "/t"⟩
        (fun _ => ⟨[1], [2]⟩) (fun _ => [3]) =
      .ok
        { encryptedPayload :=
            u32LE (onionBlobFinal (fun _ _ pt => pt ++ [0]) "p"
                [⟨"ed", "aabb", "ip", 1⟩] ⟨"h", 2, "https", "/t"⟩
                (fun _ => ⟨[1], [2]⟩) (fun _ => [3])).length ++
              onionBlobFinal (fun _ _ pt => pt ++ [0]) "p"
                [⟨"ed", "aabb", "ip", 1⟩] ⟨"h", 2, "https", "/t"⟩
                (fun _ => ⟨[1], [2]⟩) (fun _ => [3]) ++
              utf8Bytes (wrapperMetaJson (CryptoUtils.toHex
                ((fun (_ : Nat) => (⟨[1], [2]⟩ : KeyPair))
                  ([(⟨"ed", "aabb", "ip", 1⟩ : OnionPathNode)]).length).publicKey))
          entryNode := some (([(⟨"ed", "aabb", "ip", 1⟩ : OnionPathNode)]).getD 0 default)
          ephemeralKey := [1]
          finalEphemeralPublicKey := [1]
          finalEphemeralSecretKey := [2] } :=
  ⟨by simp,
    claim_c1_envelope (fun _ _ pt => pt ++ [0]) "p" [⟨"ed", "aabb", "ip", 1⟩]
      ⟨"h", 2, "https", "/t"⟩ (fun _ => ⟨[1], [2]⟩) (fun _ => [3]) (by simp)⟩

/-! ### Claim C7 -/

theorem onionLoopPure_congr (enc : List Nat → List Nat → List Nat → List Nat)
    (onionPath : List OnionPathNode) (destination : OnionDestination)
    (kg1 kg2 : Nat → KeyPair) (ivg1 ivg2 : Nat → List Nat)
    (hk : ∀ j, j ≤ onionPath.length → kg1 j = kg2 j)
    (hiv : ∀ j, j < onionPath.length → ivg1 j = ivg2 j) :
    ∀ c, c ≤ onionPath.length → ∀ blob,
      onionLoopPure enc onionPath destination kg1 ivg1 c blob =
        onionLoopPure enc onionPath destination kg2 ivg2 c blob := by
  intro c
  induction c with
  | zero => intro _ blob; rfl
  | succ c ih =>
    intro hc blob
    have h1 : kg1 (onionPath.length - c) = kg2 (onionPath.length - c) :=
      hk _ (by omega)
    have h2 : ivg1 (onionPath.length - 1 - c) = ivg2 (onionPath.length - 1 - c) :=
      hiv _ (by omega)
    have h3 : kg1 (onionPath.length - 1 - c) = kg2 (onionPath.length - 1 - c) :=
      hk _ (by omega)
    simp only [onionLoopPure, hopIterationPure, hopLayerPlain, h1, h2, h3]
    exact ih (by omega) _

/-- C7: `buildOnionRequest` is deterministic — two runs on identical inputs
that draw identical ephemeral keypairs (indices `0..path.length` of the
generation stream) and identical IVs (indices `0..path.length - 1`) produce
byte-identical envelopes; the layers are produced by one deterministic
innermost-to-outermost loop. -/
theorem claim_c7_determinism (enc : List Nat → List Nat → List Nat → List Nat)
    (payloadJson : String) (onionPath : List OnionPathNode)
    (destination : OnionDestination)
    (kg1 kg2 : Nat → KeyPair) (ivg1 ivg2 : Nat → List Nat)
    (hk : ∀ j, j ≤ onionPath.length → kg1 j = kg2 j)
    (hiv : ∀ j, j < onionPath.length → ivg1 j = ivg2 j) :
    buildOnionRequest enc payloadJson onionPath destination kg1 ivg1 =
      buildOnionRequest enc payloadJson onionPath destination kg2 ivg2 := by
  rw [buildOnionRequest_ok, buildOnionRequest_ok]
  have hblob : onionBlobFinal enc payloadJson onionPath destination kg1 ivg1 =
      onionBlobFinal enc payloadJson onionPath destination kg2 ivg2 := by
    unfold onionBlobFinal
    exact onionLoopPure_congr enc onionPath destination kg1 kg2 ivg1 ivg2
      hk hiv onionPath.length le_rfl _
  rw [hblob, hk onionPath.length le_rfl, hk 0 (Nat.zero_le _)]

/-- Witness for C7: two random streams that agree on the consumed prefix
(keypairs 0 and 1, IV 0 of a one-hop build) and differ beyond it. -/
theorem claim_c7_determinism_witness :
    (∀ j, j ≤ ([(⟨"e", "aa", "i", 1⟩ : OnionPathNode)]).length →
      (fun (_ : Nat) => (⟨[2], [1]⟩ : KeyPair)) j =
        (fun j => if j ≤ 1 then (⟨[2], [1]⟩ : KeyPair) else ⟨[9], [9]⟩) j) ∧
    (∀ j, j < ([(⟨"e", "aa", "i", 1⟩ : OnionPathNode)]).length →
      (fun (_ : Nat) => ([3] : List Nat)) j =
        (fun j => if j < 1 then ([3] : List Nat) else [4]) j) ∧
    buildOnionRequest (fun _ _ pt => pt) "q" [⟨"e", "aa", "i", 1⟩]
        ⟨"h", 2, "http", "/t"⟩ (fun _ => ⟨[2], [1]⟩) (fun _ => [3]) =
      buildOnionRequest (fun _ _ pt => pt) "q" [⟨"e", "aa", "i", 1⟩]
        ⟨"h", 2, "http", "/t"⟩
        (fun j => if j ≤ 1 then ⟨[2], [1]⟩ else ⟨[9], [9]⟩)
        (fun j => if j < 1 then [3] else [4]) := by
  refine ⟨fun j hj => by simp at hj; simp [hj], fun j hj => by simp at hj; simp [hj], ?_⟩
  exact claim_c7_determinism (fun _ _ pt => pt) "q" [⟨"e", "aa", "i", 1⟩]
    ⟨"h", 2, "http", "/t"⟩ _ _ _ _
    (fun j hj => by simp at hj; simp [hj])
    (fun j hj => by simp at hj; simp [hj])

/-! ### The layer chain, innermost to outermost -/

/-- The chain of blobs the loop of `buildOnionRequest` produces: `layerBlob k`
is the blob after the first `k` executed iterations (`k = 0` the innermost
frame; the iteration producing `layerBlob (k + 1)` has loop index
`path.length - 1 - k`). -/
def layerBlob (enc : List Nat → List Nat → List Nat → List Nat)
    (payloadJson : String) (onionPath : List OnionPathNode)
    (destination : OnionDestination) (keyGen : Nat → KeyPair)
    (ivGen : Nat → List Nat) : Nat → List Nat
  | 0 => innermostFrame payloadJson
  | k + 1 =>
    hopIterationPure enc onionPath destination keyGen ivGen
      (onionPath.length - 1 - k)
      (layerBlob enc payloadJson onionPath destination keyGen ivGen k)

theorem onionLoopPure_eq_layerBlob
    (enc : List Nat → List Nat → List Nat → List Nat) (payloadJson : String)
    (onionPath : List OnionPathNode) (destination : OnionDestination)
    (keyGen : Nat → KeyPair) (ivGen : Nat → List Nat) :
    ∀ c, c ≤ onionPath.length →
      onionLoopPure enc onionPath destination keyGen ivGen c
          (layerBlob enc payloadJson onionPath destination keyGen ivGen
            (onionPath.length - c)) =
        layerBlob enc payloadJson onionPath destination keyGen ivGen
          onionPath.length := by
  intro c
  induction c with
  | zero => intro _; simp [onionLoopPure]
  | succ c ih =>
    intro hc
    have hN : onionPath.length - c = (onionPath.length - (c + 1)) + 1 := by omega
    have hidx : onionPath.length - 1 - (onionPath.length - (c + 1)) = c := by
      omega
    have hstep :
        layerBlob enc payloadJson onionPath destination keyGen ivGen
            (onionPath.length - c) =
          hopIterationPure enc onionPath destination keyGen ivGen c
            (layerBlob enc payloadJson onionPath destination keyGen ivGen
              (onionPath.length - (c + 1))) := by
      rw [hN]
      simp only [layerBlob]
      rw [hidx]
    simp only [onionLoopPure]
    rw [← hstep]
    exact ih (by omega)

theorem onionBlobFinal_eq_layerBlob
    (enc : List Nat → List Nat → List Nat → List Nat) (payloadJson : String)
    (onionPath : List OnionPathNode) (destination : OnionDestination)
    (keyGen : Nat → KeyPair) (ivGen : Nat → List Nat) :
    onionBlobFinal enc payloadJson onionPath destination keyGen ivGen =
      layerBlob enc payloadJson onionPath destination keyGen ivGen
        onionPath.length := by
  have h := onionLoopPure_eq_layerBlob enc payloadJson onionPath destination
    keyGen ivGen onionPath.length le_rfl
  rw [Nat.sub_self] at h
  exact h

/-! ### Claim C2 -/

/-- C2: for every path of length `N ≥ 1` the loop of `buildOnionRequest`
runs innermost to outermost; the blob after `k + 1` iterations seals (under
the key derived from the iteration's fresh keypair, index `k + 1`, and hop
`N - 1 - k`) the plaintext `u32_LE(len(prev)) || prev || routing`, whose
routing is `{host, port, protocol, target}` copied from the destination for
the terminal layer (`k = 0`, loop index `N - 1`) and
`{destination, ephemeral_key, enc_type}` for intermediate layers, naming hop
`i + 1 = N - k` and the ephemeral public key of the layer inside (keypair
index `k`); the innermost blob is
`u32_LE(payload_len) || payload || bytes of the headers JSON`; and the
envelope of `buildOnionRequest` wraps exactly the blob after `N`
iterations. -/
theorem claim_c2_layer_structure
    (enc : List Nat → List Nat → List Nat → List Nat) (payloadJson : String)
    (onionPath : List OnionPathNode) (destination : OnionDestination)
    (keyGen : Nat → KeyPair) (ivGen : Nat → List Nat)
    (hN : 1 ≤ onionPath.length) :
    layerBlob enc payloadJson onionPath destination keyGen ivGen 0 =
      u32LE (utf8Bytes payloadJson).length ++ utf8Bytes payloadJson ++
        utf8Bytes "\x7b\"headers\":\x7b\x7d\x7d" ∧
    (∀ k, k < onionPath.length →
      layerBlob enc payloadJson onionPath destination keyGen ivGen (k + 1) =
        ivGen k ++
          enc
            (deriveSymmetricKey ((keyGen (k + 1)).secretKey.take 32)
              (CryptoUtils.fromHex
                (onionPath.getD (onionPath.length - 1 - k) default).x25519_pubkey))
            (ivGen k)
            (u32LE (layerBlob enc payloadJson onionPath destination keyGen ivGen k).length ++
              layerBlob enc payloadJson onionPath destination keyGen ivGen k ++
              utf8Bytes
                (if k = 0 then destRoutingJson destination
                 else
                   intermediateRoutingJson
                     (onionPath.getD (onionPath.length - k) default).ed25519_pubkey
                     (CryptoUtils.toHex (keyGen k).publicKey)))) ∧
    (∀ r, buildOnionRequest enc payloadJson onionPath destination keyGen ivGen =
        .ok r →
      r.encryptedPayload =
        u32LE (layerBlob enc payloadJson onionPath destination keyGen ivGen
            onionPath.length).length ++
          layerBlob enc payloadJson onionPath destination keyGen ivGen
            onionPath.length ++
          utf8Bytes (wrapperMetaJson
            (CryptoUtils.toHex (keyGen onionPath.length).publicKey))) := by
  refine ⟨rfl, ?_, ?_⟩
  · intro k hk
    have h1 : onionPath.length - (onionPath.length - 1 - k) = k + 1 := by omega
    have h2 : onionPath.length - 1 - (onionPath.length - 1 - k) = k := by omega
    conv_lhs => simp only [layerBlob]
    simp only [hopIterationPure, HopEncryption.encryptAESGCM,
      HopEncryption.create, hopLayerPlain, h1, h2]
    by_cases hk0 : k = 0
    · subst hk0
      simp
    · have hne : onionPath.length - 1 - k ≠ onionPath.length - 1 := by omega
      have h3 : onionPath.length - 1 - k + 1 = onionPath.length - k := by omega
      rw [if_neg hne, if_neg hk0, h3]
  · intro r hr
    rw [buildOnionRequest_ok] at hr
    cases hr
    simp [onionBlobFinal_eq_layerBlob]

/-- Witness for C2 on a concrete two-hop path. -/
theorem claim_c2_layer_structure_witness :
    1 ≤ ([⟨"e1", "aa", "i1", 1⟩, (⟨"e2", "bb", "i2", 2⟩ : OnionPathNode)]).length ∧
    (layerBlob (fun _ _ pt => pt) "pp"
        [⟨"e1", "aa", "i1", 1⟩, ⟨"e2", "bb", "i2", 2⟩]
        ⟨"h", 4, "https", "/t"⟩ (fun j => ⟨[j], [j + 10]⟩) (fun j => [j]) 0 =
      u32LE (utf8Bytes "pp").length ++ utf8Bytes "pp" ++
        utf8Bytes "\x7b\"headers\":\x7b\x7d\x7d") ∧
    (∀ k, k < ([⟨"e1", "aa", "i1", 1⟩, (⟨"e2", "bb", "i2", 2⟩ : OnionPathNode)]).length →
      layerBlob (fun _ _ pt => pt) "pp"
          [⟨"e1", "aa", "i1", 1⟩, ⟨"e2", "bb", "i2", 2⟩]
          ⟨"h", 4, "https", "/t"⟩ (fun j => ⟨[j], [j + 10]⟩) (fun j => [j]) (k + 1) =
        [k] ++
          (u32LE (layerBlob (fun _ _ pt => pt) "pp"
              [⟨"e1", "aa", "i1", 1⟩, ⟨"e2", "bb", "i2", 2⟩]
              ⟨"h", 4, "https", "/t"⟩ (fun j => ⟨[j], [j + 10]⟩) (fun j => [j]) k).length ++
            layerBlob (fun _ _ pt => pt) "pp"
              [⟨"e1", "aa", "i1", 1⟩, ⟨"e2", "bb", "i2", 2⟩]
              ⟨"h", 4, "https", "/t"⟩ (fun j => ⟨[j], [j + 10]⟩) (fun j => [j]) k ++
            utf8Bytes
              (if k = 0 then destRoutingJson ⟨"h", 4, "https", "/t"⟩
               else
                 intermediateRoutingJson
                   (([⟨"e1", "aa", "i1", 1⟩,
                      (⟨"e2", "bb", "i2", 2⟩ : OnionPathNode)]).getD (2 - k) default).ed25519_pubkey
                   (CryptoUtils.toHex [k])))) := by
  have h := claim_c2_layer_structure (fun _ _ pt => pt) "pp"
    [⟨"e1", "aa", "i1", 1⟩, ⟨"e2", "bb", "i2", 2⟩]
    ⟨"h", 4, "https", "/t"⟩ (fun j => ⟨[j], [j + 10]⟩) (fun j => [j]) (by simp)
  refine ⟨by simp, h.1, ?_⟩
  intro k hk
  have h2 := h.2.1 k hk
  simpa using h2

/-! ### Claim C10 -/

/-- C10: destination validation lives only in `sendOnionRequest`: a
destination with an empty host or target fails the truthiness check and
`sendOnionRequest` returns the validation error before any path or request
building, while `buildOnionRequest` still succeeds and embeds the empty
values verbatim in the terminal routing JSON of the terminal layer
plaintext. -/
theorem claim_c10_destination_validation (destination : OnionDestination)
    (h : destination.host = "" ∨ destination.target = "") :
    destinationValid destination = false ∧
    (∀ (enc : List Nat → List Nat → List Nat → List Nat) (payloadJson : String)
        (serviceNodes : List ServiceNode) (onionPathLength : Nat)
        (rand : Nat → Nat) (fuel : Nat) (keyGen : Nat → KeyPair)
        (ivGen : Nat → List Nat),
      sendOnionRequest enc payloadJson destination serviceNodes
          onionPathLength rand fuel keyGen ivGen = some (.error destErrorMsg)) ∧
    (∀ (enc : List Nat → List Nat → List Nat → List Nat) (payloadJson : String)
        (onionPath : List OnionPathNode) (keyGen : Nat → KeyPair)
        (ivGen : Nat → List Nat),
      ∃ r, buildOnionRequest enc payloadJson onionPath destination keyGen ivGen =
        .ok r) ∧
    (∀ (onionPath : List OnionPathNode) (keyGen : Nat → KeyPair)
        (blob : List Nat), onionPath ≠ [] →
      hopLayerPlain onionPath destination keyGen (onionPath.length - 1) blob =
        u32LE blob.length ++ blob ++ utf8Bytes (destRoutingJson destination)) ∧
    (destination.host = "" →
      destRoutingJson destination =
        "\x7b\"host\":\"\",\"port\":" ++ toString destination.port ++
          ",\"protocol\":" ++ jsonStr destination.protocol ++
          ",\"target\":" ++ jsonStr destination.target ++ "\x7d") ∧
    (destination.target = "" →
      destRoutingJson destination =
        "\x7b\"host\":" ++ jsonStr destination.host ++
          ",\"port\":" ++ toString destination.port ++
          ",\"protocol\":" ++ jsonStr destination.protocol ++
          ",\"target\":" ++ "\"\"" ++ "\x7d") := by
  have hvalid : destinationValid destination = false := by
    rcases h with h | h <;> simp [destinationValid, h]
  refine ⟨hvalid, ?_, ?_, ?_, ?_, ?_⟩
  · intro enc payloadJson serviceNodes onionPathLength rand fuel keyGen ivGen
    simp [sendOnionRequest, hvalid]
  · intro enc payloadJson onionPath keyGen ivGen
    exact ⟨_, buildOnionRequest_ok enc payloadJson onionPath destination
      keyGen ivGen⟩
  · intro onionPath keyGen blob _
    simp [hopLayerPlain]
  · intro hh
    have hempty : jsonStr "" = "\"\"" := rfl
    rw [destRoutingJson, hh, hempty]
    simp [String.append_assoc]
  · intro hh
    have hempty : jsonStr "" = "\"\"" := rfl
    rw [destRoutingJson, hh, hempty]

/-- Witness for C10 at a concrete destination with an empty host. -/
theorem claim_c10_destination_validation_witness :
    ((⟨"", 443, "https", "/oxen/custom-endpoint/lsrpc"⟩ : OnionDestination).host = "" ∨
      (⟨"", 443, "https", "/oxen/custom-endpoint/lsrpc"⟩ : OnionDestination).target = "") ∧
    destinationValid ⟨"", 443, "https", "/oxen/custom-endpoint/lsrpc"⟩ = false ∧
    sendOnionRequest (fun _ _ pt => pt) "p"
        ⟨"", 443, "https", "/oxen/custom-endpoint/lsrpc"⟩ [] 3 (fun k => k) 9
        (fun _ => ⟨[1], [2]⟩) (fun _ => [3]) = some (.error destErrorMsg) ∧
    (∃ r, buildOnionRequest (fun _ _ pt => pt) "p" [⟨"e", "aa", "i", 1⟩]
        ⟨"", 443, "https", "/oxen/custom-endpoint/lsrpc"⟩
        (fun _ => ⟨[1], [2]⟩) (fun _ => [3]) = .ok r) := by
  have h := claim_c10_destination_validation
    ⟨"", 443, "https", "/oxen/custom-endpoint/lsrpc"⟩ (Or.inl rfl)
  exact ⟨Or.inl rfl, h.1, h.2.1 _ "p" [] 3 (fun k => k) 9 _ _,
    h.2.2.1 _ "p" [⟨"e", "aa", "i", 1⟩] _ _⟩

/-! ### Claim C3 -/

theorem bytesToNatLE_natToBytesLE :
    ∀ (len n : Nat), n < 2 ^ (8 * len) →
      bytesToNatLE (natToBytesLE len n) = n := by
  intro len
  induction len with
  | zero =>
    intro n h
    simp only [Nat.mul_zero, pow_zero, Nat.lt_one_iff] at h
    simp [natToBytesLE, bytesToNatLE, h]
  | succ len ih =>
    intro n h
    simp only [natToBytesLE, bytesToNatLE]
    rw [ih (n / 256) ?_]
    · exact Nat.mod_add_div n 256
    · rw [Nat.div_lt_iff_lt_mul (by norm_num)]
      calc n < 2 ^ (8 * (len + 1)) := h
        _ = 2 ^ (8 * len) * 256 := by
          rw [show 8 * (len + 1) = 8 * len + 8 by ring, pow_add]
          norm_num

theorem c25519Order_pos : 0 < c25519Order := by
  unfold c25519Order
  positivity

theorem c25519Order_lt : c25519Order < 2 ^ (8 * 32) := by
  unfold c25519Order
  norm_num

/-- X25519 commutativity in the group model: running `scalarMult` with one
secret against the other's public key is symmetric. -/
theorem scalarMult_comm (a b : List Nat) :
    scalarMult a (scalarMultBase b) = scalarMult b (scalarMultBase a) := by
  unfold scalarMultBase
  unfold scalarMult
  have h9 : bytesToNatLE basePointBytes = 9 :=
    bytesToNatLE_natToBytesLE 32 9 (by norm_num)
  have hlt : ∀ x : Nat, x % c25519Order < 2 ^ (8 * 32) := fun x =>
    lt_trans (Nat.mod_lt x c25519Order_pos) c25519Order_lt
  rw [h9, bytesToNatLE_natToBytesLE 32 _ (hlt _),
    bytesToNatLE_natToBytesLE 32 _ (hlt _)]
  congr 1
  rw [Nat.mul_mod_mod, Nat.mul_mod_mod]
  congr 1
  ring

/-- C3: the derived symmetric key is HMAC-SHA256 keyed with the 4-byte ASCII
string `"LOKI"` over the X25519 shared secret, and the derivation is
direction-agnostic: for any two 32-byte keypairs, deriving from
`(a_sk, b_pk)` and from `(b_sk, a_pk)` yields the same key. -/
theorem claim_c3_key_derivation (a b : List Nat) (_ha : a.length = 32)
    (_hb : b.length = 32) :
    (∀ P, deriveSymmetricKey a P = hmacSHA256 lokiSalt (scalarMult a P)) ∧
    deriveSymmetricKey a (scalarMultBase b) =
      deriveSymmetricKey b (scalarMultBase a) := by
  refine ⟨fun P => rfl, ?_⟩
  unfold deriveSymmetricKey
  rw [scalarMult_comm]

/-- Witness for C3 on two concrete 32-byte scalars. -/
theorem claim_c3_key_derivation_witness :
    (List.replicate 32 1 : List Nat).length = 32 ∧
    (List.replicate 32 2 : List Nat).length = 32 ∧
    (∀ P, deriveSymmetricKey (List.replicate 32 1) P =
      hmacSHA256 lokiSalt (scalarMult (List.replicate 32 1) P)) ∧
    deriveSymmetricKey (List.replicate 32 1)
        (scalarMultBase (List.replicate 32 2)) =
      deriveSymmetricKey (List.replicate 32 2)
        (scalarMultBase (List.replicate 32 1)) := by
  have h := claim_c3_key_derivation (List.replicate 32 1) (List.replicate 32 2)
    (by simp) (by simp)
  exact ⟨by simp, by simp, h.1, h.2⟩

/-! ### Claim C4 -/

theorem pickIndices_spec (numActive pathLength : Nat) (rand : Nat → Nat) :
    ∀ (fuel k : Nat) (acc idxs : List Nat),
      pickIndices numActive pathLength rand fuel k acc = some idxs →
      acc.Nodup → (∀ i ∈ acc, 0 < numActive → i < numActive) →
      acc.length ≤ pathLength →
      idxs.Nodup ∧ idxs.length = pathLength ∧
        (∀ i ∈ idxs, 0 < numActive → i < numActive) := by
  intro fuel
  induction fuel with
  | zero =>
    intro k acc idxs hsome hnd hbd hlen
    simp only [pickIndices] at hsome
    split at hsome
    · exact Option.noConfusion hsome
    · cases Option.some.inj hsome
      exact ⟨hnd, by omega, hbd⟩
  | succ fuel ih =>
    intro k acc idxs hsome hnd hbd hlen
    simp only [pickIndices] at hsome
    split at hsome
    · next hlt =>
      by_cases hc : acc.contains (rand k % numActive)
      · rw [if_pos hc] at hsome
        exact ih (k + 1) acc idxs hsome hnd hbd (Nat.le_of_lt hlt)
      · rw [if_neg hc] at hsome
        have hmem : (rand k % numActive) ∉ acc := by simpa using hc
        refine ih (k + 1) _ idxs hsome ?_ ?_ ?_
        · simp [List.nodup_append, hnd, hmem]
        · intro i hi hpos
          rcases List.mem_append.mp hi with hi | hi
          · exact hbd i hi hpos
          · rcases List.mem_singleton.mp hi with rfl
            exact Nat.mod_lt _ hpos
        · simp only [List.length_append, List.length_singleton]
          omega
    · next hge =>
      cases Option.some.inj hsome
      exact ⟨hnd, by omega, hbd⟩

/-- Counterexample to C4 as stated: with exactly 2 valid candidates and a
requested length of 3, the caller does not receive the
`Insufficient{need, got}` cause — the catch-all of `buildOnionPath` replaces
it with the generic `"Unable to build onion path"` error. -/
theorem claim_c4_path_selection_cex :
    buildOnionPath
        [⟨"e1", "x1", "ip1", 1, 21, 0⟩, ⟨"e2", "x2", "ip2", 2, 22, 0⟩]
        3 (fun k => k) 5 = some (.error pathFailMsg) ∧
    buildOnionPath
        [⟨"e1", "x1", "ip1", 1, 21, 0⟩, ⟨"e2", "x2", "ip2", 2, 22, 0⟩]
        3 (fun k => k) 5 ≠ some (.error (insufficientMsg 3 2)) := by
  have e : buildOnionPath
      [⟨"e1", "x1", "ip1", 1, 21, 0⟩, ⟨"e2", "x2", "ip2", 2, 22, 0⟩]
      3 (fun k => k) 5 = some (.error pathFailMsg) := rfl
  refine ⟨e, ?_⟩
  intro h
  rw [e] at h
  exact absurd (Except.error.inj (Option.some.inj h)) (by decide)

/-- C4 (amended): path selection filters to candidates whose ed25519 key,
x25519 key, ip and storage port are all truthy; with fewer than N valid
candidates it fails — the inner error carries need = N and got = number of
valid candidates, but the catch-all rethrows the generic
`"Unable to build onion path"` error, so the counts are not surfaced to the
caller; otherwise a returned path holds exactly N nodes drawn at pairwise
distinct indices of the valid candidate list. -/
theorem claim_c4_path_selection_amended (serviceNodes : List ServiceNode)
    (pathLength : Nat) (rand : Nat → Nat) (fuel : Nat) :
    (∀ n, n ∈ filterActive serviceNodes ↔
      n ∈ serviceNodes ∧ isActiveNode n = true) ∧
    ((filterActive serviceNodes).length < pathLength →
      buildOnionPathTry serviceNodes pathLength rand fuel =
        some (.error
          (insufficientMsg pathLength (filterActive serviceNodes).length)) ∧
      buildOnionPath serviceNodes pathLength rand fuel =
        some (.error pathFailMsg)) ∧
    (∀ p, buildOnionPath serviceNodes pathLength rand fuel = some (.ok p) →
      p.length = pathLength ∧
      ∃ idxs : List Nat, idxs.Nodup ∧ idxs.length = pathLength ∧
        (∀ i ∈ idxs, i < (filterActive serviceNodes).length) ∧
        p = idxs.map
          (fun i => projectNode ((filterActive serviceNodes).getD i default))) := by
  refine ⟨?_, ?_, ?_⟩
  · intro n
    simp [filterActive, List.mem_filter]
  · intro hlt
    have htry : buildOnionPathTry serviceNodes pathLength rand fuel =
        some (.error
          (insufficientMsg pathLength (filterActive serviceNodes).length)) := by
      unfold buildOnionPathTry
      rw [if_pos hlt]
    refine ⟨htry, ?_⟩
    unfold buildOnionPath
    rw [htry]
  · intro p hp
    unfold buildOnionPath at hp
    rcases htry : buildOnionPathTry serviceNodes pathLength rand fuel with
      _ | e | q
    · rw [htry] at hp
      exact Option.noConfusion hp
    · rw [htry] at hp
      exact Except.noConfusion (Option.some.inj hp)
    · rw [htry] at hp
      cases Option.some.inj hp
      simp only [buildOnionPathTry] at htry
      split at htry
      · exact Except.noConfusion (Option.some.inj htry)
      · next hge =>
        rcases hpick : pickIndices (filterActive serviceNodes).length
            pathLength rand fuel 0 [] with _ | idxs
        · rw [hpick] at htry
          exact Option.noConfusion htry
        · rw [hpick] at htry
          cases Except.ok.inj (Option.some.inj htry)
          have hspec := pickIndices_spec (filterActive serviceNodes).length
            pathLength rand fuel 0 [] idxs hpick List.nodup_nil
            (by intro i hi; exact absurd hi (List.not_mem_nil i))
            (Nat.zero_le _)
          refine ⟨by simp [hspec.2.1], idxs, hspec.1, hspec.2.1, ?_, rfl⟩
          intro i hi
          rcases Nat.eq_zero_or_pos (filterActive serviceNodes).length with
            h0 | hpos
          · have hplzero : pathLength = 0 := by omega
            have : idxs = [] :=
              List.eq_nil_of_length_eq_zero (by rw [hspec.2.1, hplzero])
            rw [this] at hi
            exact absurd hi (List.not_mem_nil i)
          · exact hspec.2.2 i hi hpos

/-- Witness for C4 exercising both branches of the amended claim on concrete
candidate lists: 2 valid candidates with N = 3 (failure), 3 valid candidates
with N = 2 (success). -/
theorem claim_c4_path_selection_witness :
    ((filterActive
        [⟨"e1", "x1", "ip1", 1, 21, 0⟩, ⟨"e2", "x2", "ip2", 2, 22, 0⟩]).length < 3 ∧
      buildOnionPathTry
          [⟨"e1", "x1", "ip1", 1, 21, 0⟩, ⟨"e2", "x2", "ip2", 2, 22, 0⟩]
          3 (fun k => k) 5 =
        some (.error (insufficientMsg 3
          (filterActive
            [⟨"e1", "x1", "ip1", 1, 21, 0⟩, ⟨"e2", "x2", "ip2", 2, 22, 0⟩]).length)) ∧
      buildOnionPath
          [⟨"e1", "x1", "ip1", 1, 21, 0⟩, ⟨"e2", "x2", "ip2", 2, 22, 0⟩]
          3 (fun k => k) 5 = some (.error pathFailMsg)) ∧
    (buildOnionPath
        [⟨"e1", "x1", "ip1", 1, 21, 0⟩, ⟨"e2", "x2", "ip2", 2, 22, 0⟩,
         ⟨"e3", "x3", "ip3", 3, 23, 0⟩] 2 (fun k => k) 5 =
      some (.ok [⟨"e1", "x1", "ip1", 21⟩, ⟨"e2", "x2", "ip2", 22⟩]) ∧
      ([(⟨"e1", "x1", "ip1", 21⟩ : OnionPathNode), ⟨"e2", "x2", "ip2", 22⟩]).length = 2 ∧
      ∃ idxs : List Nat, idxs.Nodup ∧ idxs.length = 2 ∧
        (∀ i ∈ idxs,
          i < (filterActive
            [⟨"e1", "x1", "ip1", 1, 21, 0⟩, ⟨"e2", "x2", "ip2", 2, 22, 0⟩,
             ⟨"e3", "x3", "ip3", 3, 23, 0⟩]).length) ∧
        [(⟨"e1", "x1", "ip1", 21⟩ : OnionPathNode), ⟨"e2", "x2", "ip2", 22⟩] =
          idxs.map (fun i => projectNode
            ((filterActive
              [⟨"e1", "x1", "ip1", 1, 21, 0⟩, ⟨"e2", "x2", "ip2", 2, 22, 0⟩,
               ⟨"e3", "x3", "ip3", 3, 23, 0⟩]).getD i default))) := by
  constructor
  · exact ⟨by decide, (claim_c4_path_selection_amended
      [⟨"e1", "x1", "ip1", 1, 21, 0⟩, ⟨"e2", "x2", "ip2", 2, 22, 0⟩]
      3 (fun k => k) 5).2.1 (by decide)⟩
  · have hok : buildOnionPath
        [⟨"e1", "x1", "ip1", 1, 21, 0⟩, ⟨"e2", "x2", "ip2", 2, 22, 0⟩,
         ⟨"e3", "x3", "ip3", 3, 23, 0⟩] 2 (fun k => k) 5 =
        some (.ok [⟨"e1", "x1", "ip1", 21⟩, ⟨"e2", "x2", "ip2", 22⟩]) := rfl
    exact ⟨hok, (claim_c4_path_selection_amended
      [⟨"e1", "x1", "ip1", 1, 21, 0⟩, ⟨"e2", "x2", "ip2", 2, 22, 0⟩,
       ⟨"e3", "x3", "ip3", 3, 23, 0⟩] 2 (fun k => k) 5).2.2 _ hok⟩
